import Mathlib

/-!
Verification development for the `delegatooor` treasury-automation bot.

This file shallowly embeds the parts of the Python source that the checked
claims are about:

* `helpers/fetch_transactions.py` — the resilient queue fetcher
  (`fetch_recent_transactions`) and the queue normalizer
  (`filter_and_sort_pending_transactions`);
* `helpers/decode_hex.py` — the calldata decoder (`decode_hex_data`);
* `helpers/execute_transaction.py` — signature aggregation
  (`collect_and_sort_signatures`);
* `helpers/deposit_monitor.py` — the request executor (`make_request`),
  the real-time probe (`run_deposit_probe` /
  `check_large_deposits_with_block`) and the chunked historical scanners
  (`check_large_deposits_custom` / `fetch_all_deposits_custom`);
* `commands/hot.py` — the four execution-gate command variants
  (`_run_execute_command`);
* `main.py` — the periodic tick's automated execution path and its
  bounded-retry loop (`periodic_recheck`).

Network effects are made explicit: every outbound request is an entry of an
oracle (a function from the attempt index to the response, or an
environment record holding each endpoint's final post-retry outcome).
JSON response bodies are modelled as typed objects (association lists);
this matches every response shape the upstream APIs produce and is the
boundary within which the Python code is total.  Python floats are
modelled by exact rationals; every concrete value any theorem below
evaluates is exactly representable, so CPython's float arithmetic and
`str()` agree with the model on those values.
-/

namespace Delegatooor

/-! ## Python scalar values

The decoder builds a dict whose values are Python scalars (a `str` built by
`str(...)`, or — as the specification describes the payload — a float).
`PyScalar` lets both shapes live in one type so that they can be compared.
-/

inductive PyScalar where
  | str (s : String) : PyScalar
  | float (q : ℚ) : PyScalar
deriving DecidableEq, Repr

/-- CPython's `str()` of a float whose exact value is `q`.  For integral
values (`q.den = 1`) CPython prints `"<n>.0"`, which is the only case any
theorem below evaluates; the non-integral branch is a plain exact
rendering standing in for the float repr. -/
def pyFloatRepr (q : ℚ) : String :=
  if q.den = 1 then toString q.num ++ ".0" else toString q.num ++ "/" ++ toString q.den

/-- Python `int(s)`-style digit-string parse; `none` if `s` is not a
non-empty digit string. -/
def digitsToNat (s : String) : Option Nat :=
  if s.length ≠ 0 ∧ s.all Char.isDigit then
    some (s.foldl (fun n c => n * 10 + (c.toNat - 48)) 0)
  else none

/-- Python `float(s)` on the decimal strings this code base produces
(`"<digits>"` or `"<digits>.<digits>"`); other inputs are never fed to it
by the embedded code paths. -/
def parsePyFloat (s : String) : ℚ :=
  match s.splitOn "." with
  | [a] => ((digitsToNat a).getD 0 : ℚ)
  | [a, b] => ((digitsToNat a).getD 0 : ℚ) + ((digitsToNat b).getD 0 : ℚ) / 10 ^ b.length
  | _ => 0

/-- Python `float(x)` applied to a scalar, as done by the gate code
(`float(decoded.get("amountInTokens", 0.0))`). -/
def pyFloat : PyScalar → ℚ
  | .str s => parsePyFloat s
  | .float q => q

/-! ## Hex parsing (`eth_utils.decode_hex`, `bytes.fromhex`) -/

/-- Value of one hex digit, `none` for a non-hex character. -/
def hexDigit (c : Char) : Option Nat :=
  if '0' ≤ c ∧ c ≤ '9' then some (c.toNat - 48)
  else if 'a' ≤ c ∧ c ≤ 'f' then some (c.toNat - 87)
  else if 'A' ≤ c ∧ c ≤ 'F' then some (c.toNat - 55)
  else none

/-- Hex character pairs to bytes; `none` models the `ValueError` raised on
an odd-length or non-hex string. -/
def hexCharsToBytes : List Char → Option (List Nat)
  | [] => some []
  | [_] => none
  | a :: b :: rest => do
    let ha ← hexDigit a
    let hb ← hexDigit b
    let t ← hexCharsToBytes rest
    pure ((16 * ha + hb) :: t)

/-- Python `bytes.fromhex` / `eth_utils.decode_hex` on an unprefixed hex string. -/
def hexToBytes (s : String) : Option (List Nat) :=
  hexCharsToBytes s.toList

/-- Big-endian bytes to an unsigned integer (`eth_abi`'s `uint256` read). -/
def bytesToNat (bs : List Nat) : Nat :=
  bs.foldl (fun n b => 256 * n + b) 0

/-! ## Calldata decoder — `helpers/decode_hex.py`, `decode_hex_data` -/

structure DecodedPayload where
  validatorId : String
  amountInTokens : PyScalar
deriving DecidableEq, Repr

/-- Embeds `decode_hex_data(hex_data)` from `helpers/decode_hex.py`:
strip an optional `0x` prefix, skip the 8-hex-character selector, strictly
decode the remainder as two `uint256` words (eth_abi's strict decode
demands exactly 64 bytes), and build
`{"validatorId": str(w1), "amountInTokens": str(w2 / 10**18)}`.
`none` models the `except`-clause returning `None`. -/
def decode_hex_data (hexData : String) : Option DecodedPayload :=
  let cs := hexData.toList
  let stripped := match cs with
    | '0' :: 'x' :: rest => rest
    | other => other
  match hexCharsToBytes (stripped.drop 8) with
  | none => none
  | some bs =>
    if bs.length = 64 then
      let w1 := bytesToNat (bs.take 32)
      let w2 := bytesToNat (bs.drop 32)
      some ⟨toString w1, .str (pyFloatRepr ((w2 : ℚ) / 10 ^ 18))⟩
    else none

/-! ## Python string comparison

Python compares strings lexicographically by code point; the embedded code
compares ISO-8601 `submissionDate` strings with `>` and sorts owner
addresses by their lower-cased form.  The comparison is written out on the
underlying character lists (Lean's built-in `String` order does not reduce
inside the kernel). -/

/-- Code-point-lexicographic strict comparison, Python's `s1 < s2`. -/
def pyStrLtChars : List Char → List Char → Bool
  | [], [] => false
  | [], _ :: _ => true
  | _ :: _, [] => false
  | a :: as, b :: bs =>
    if a.toNat < b.toNat then true
    else if b.toNat < a.toNat then false
    else pyStrLtChars as bs

/-- Python's `s1 < s2` on strings. -/
def pyStrLt (a b : String) : Bool := pyStrLtChars a.toList b.toList

/-- Python's `s1 <= s2` on strings (total order: `¬ (s2 < s1)`). -/
def pyStrLe (a b : String) : Bool := !pyStrLt b a

/-- ASCII lower-casing of one character, Python's `str.lower` restricted to
ASCII — hex addresses, the only strings lower-cased here, are ASCII. -/
def pyCharLower (c : Char) : Char :=
  if 'A' ≤ c ∧ c ≤ 'Z' then Char.ofNat (c.toNat + 32) else c

/-- Python's `s.lower()` on ASCII strings. -/
def pyStrLower (s : String) : String := ⟨s.toList.map pyCharLower⟩

theorem pyStrLtChars_asymm : ∀ as bs : List Char,
    pyStrLtChars as bs = true → pyStrLtChars bs as = false := by
  intro as
  induction as with
  | nil =>
    intro bs h
    cases bs with
    | nil => simp [pyStrLtChars] at h
    | cons b bs' => simp [pyStrLtChars]
  | cons a as' ih =>
    intro bs h
    cases bs with
    | nil => simp [pyStrLtChars] at h
    | cons b bs' =>
      simp only [pyStrLtChars] at h ⊢
      rcases Nat.lt_trichotomy a.toNat b.toNat with hab | hab | hab
      · simp [if_neg (by omega : ¬ b.toNat < a.toNat), hab]
      · simp only [if_neg (by omega : ¬ a.toNat < b.toNat),
          if_neg (by omega : ¬ b.toNat < a.toNat)] at h ⊢
        exact ih bs' h
      · simp [if_neg (by omega : ¬ a.toNat < b.toNat), hab] at h

theorem pyStrLtChars_connex : ∀ cs as bs : List Char,
    pyStrLtChars cs as = true → pyStrLtChars cs bs = true ∨ pyStrLtChars bs as = true := by
  intro cs
  induction cs with
  | nil =>
    intro as bs h
    cases as with
    | nil => simp [pyStrLtChars] at h
    | cons a as' =>
      cases bs with
      | nil => right; simp [pyStrLtChars]
      | cons b bs' => left; simp [pyStrLtChars]
  | cons c cs' ih =>
    intro as bs h
    cases as with
    | nil => simp [pyStrLtChars] at h
    | cons a as' =>
      cases bs with
      | nil => right; simp [pyStrLtChars]
      | cons b bs' =>
        simp only [pyStrLtChars] at h ⊢
        rcases Nat.lt_trichotomy c.toNat b.toNat with hcb | hcb | hcb
        · left; simp [hcb]
        · rcases Nat.lt_trichotomy b.toNat a.toNat with hba | hba | hba
          · right; simp [hba]
          · have hca : ¬ c.toNat < a.toNat := by omega
            have hac : ¬ a.toNat < c.toNat := by omega
            simp only [if_neg hca, if_neg hac] at h
            rcases ih as' bs' h with h' | h'
            · left
              simp [if_neg (by omega : ¬ c.toNat < b.toNat),
                if_neg (by omega : ¬ b.toNat < c.toNat), h']
            · right
              simp [if_neg (by omega : ¬ b.toNat < a.toNat),
                if_neg (by omega : ¬ a.toNat < b.toNat), h']
          · simp [if_neg (by omega : ¬ c.toNat < a.toNat), (by omega : a.toNat < c.toNat)] at h
        · rcases Nat.lt_trichotomy c.toNat a.toNat with hca | hca | hca
          · right; simp [(by omega : b.toNat < a.toNat)]
          · right; simp [(by omega : b.toNat < a.toNat)]
          · simp [if_neg (by omega : ¬ c.toNat < a.toNat), hca] at h


/-! ## Transaction queue — `helpers/fetch_transactions.py` -/

/-- One entry of a transaction's `confirmations` list. -/
structure Confirmation where
  owner : String
  signature : String
deriving DecidableEq, Repr

/-- A multisig transaction as served by the Safe API feed.  `confirmations`
and `confirmationsRequired` are `Option`s because the feed may omit them
(the code reads both through `.get`). -/
structure RawFeedTx where
  nonce : Nat
  isExecuted : Bool
  submissionDate : String
  dataHex : String
  confirmations : Option (List Confirmation)
  confirmationsRequired : Option Nat
deriving DecidableEq, Repr

/-- A transaction annotated by `fetch_recent_transactions` with
`signature_count` and `confirmations_required`. -/
structure SafeTx where
  nonce : Nat
  isExecuted : Bool
  submissionDate : String
  dataHex : String
  signature_count : Nat
  confirmations_required : Nat
deriving DecidableEq, Repr

/-- The annotation loop of `fetch_recent_transactions`:
`tx["signature_count"] = len(tx.get("confirmations", []))` and
`tx["confirmations_required"] = tx.get("confirmationsRequired", 0)`. -/
def annotate (tx : RawFeedTx) : SafeTx :=
  ⟨tx.nonce, tx.isExecuted, tx.submissionDate, tx.dataHex,
   (tx.confirmations.getD []).length, tx.confirmationsRequired.getD 0⟩

/-- Insert-or-replace on an association list, modelling assignment to a
Python dict key (replacement keeps the key's original position). -/
def upsert : List (Nat × SafeTx) → Nat → SafeTx → List (Nat × SafeTx)
  | [], k, v => [(k, v)]
  | (k', v') :: rest, k, v =>
    if k' = k then (k, v) :: rest else (k', v') :: upsert rest k v

/-- Python dict lookup `m[k]` / `k in m`. -/
def lookupNonce : List (Nat × SafeTx) → Nat → Option SafeTx
  | [], _ => none
  | (k', v') :: rest, k => if k' = k then some v' else lookupNonce rest k

/-- One iteration of the `for tx in transactions` loop of
`filter_and_sort_pending_transactions`: an executed record always
overwrites the nonce's slot; a pending record fills an empty slot or
replaces a strictly older (`submissionDate` string comparison) occupant. -/
def filterStep (m : List (Nat × SafeTx)) (tx : SafeTx) : List (Nat × SafeTx) :=
  if tx.isExecuted then upsert m tx.nonce tx
  else
    match lookupNonce m tx.nonce with
    | none => upsert m tx.nonce tx
    | some prev =>
      if pyStrLt prev.submissionDate tx.submissionDate then upsert m tx.nonce tx else m

/-- Ordering used by `filtered_transactions.sort(key=lambda tx: tx["nonce"])`. -/
def nonceLe (a b : SafeTx) : Prop := a.nonce ≤ b.nonce

instance : DecidableRel nonceLe := fun a b => Nat.decLe a.nonce b.nonce

instance : IsTotal SafeTx nonceLe := ⟨fun a b => Nat.le_total a.nonce b.nonce⟩

instance : IsTrans SafeTx nonceLe := ⟨fun _ _ _ h h' => Nat.le_trans h h'⟩

/-- Embeds `filter_and_sort_pending_transactions(transactions)` from
`helpers/fetch_transactions.py`: fold the records through `filterStep`,
keep the non-executed dict values, and sort ascending by nonce (Python's
stable sort, here insertion sort). -/
def filter_and_sort_pending_transactions (txs : List SafeTx) : List SafeTx :=
  let m := txs.foldl filterStep []
  List.insertionSort nonceLe ((m.map Prod.snd).filter (fun tx => !tx.isExecuted))

/-! ## Signature aggregation — `helpers/execute_transaction.py` -/

/-- The bytes `bytes.fromhex(signature[2:])` of one confirmation. -/
def sigBytes (c : Confirmation) : Option (List Nat) :=
  hexToBytes (c.signature.drop 2)

/-- Ordering used by
`sorted(transaction["confirmations"], key=lambda x: x["owner"].lower())`. -/
def ownerLe (a b : Confirmation) : Prop :=
  pyStrLe (pyStrLower a.owner) (pyStrLower b.owner) = true

instance : DecidableRel ownerLe := fun a b =>
  Bool.decEq (pyStrLe (pyStrLower a.owner) (pyStrLower b.owner)) true

instance : IsTotal Confirmation ownerLe := by
  constructor
  intro a b
  by_cases h : pyStrLt (pyStrLower b.owner) (pyStrLower a.owner) = true
  · right
    have h' := pyStrLtChars_asymm _ _ h
    simp [ownerLe, pyStrLe, pyStrLt] at h' ⊢
    exact h'
  · left
    simp [ownerLe, pyStrLe, pyStrLt] at h ⊢
    exact h

instance : IsTrans Confirmation ownerLe := by
  constructor
  intro a b c h1 h2
  simp [ownerLe, pyStrLe, pyStrLt] at h1 h2 ⊢
  by_contra hcon
  rw [Bool.not_eq_false] at hcon
  rcases pyStrLtChars_connex _ _ ((pyStrLower b.owner).data) hcon with h' | h'
  · simp [h'] at h2
  · simp [h'] at h1

/-- Result of `collect_and_sort_signatures`: `raised` models the uncaught
`ValueError` from `bytes.fromhex` on a malformed signature, `retNone` the
explicit `return None` branches, `sigs` the aggregated byte string. -/
inductive SigResult where
  | raised : SigResult
  | retNone : SigResult
  | sigs (bs : List Nat) : SigResult
deriving DecidableEq, Repr

/-- One iteration of the concatenation loop: skip a falsy signature, append
the decoded bytes otherwise; `none` records that `bytes.fromhex` raised. -/
def sigStep (acc : Option (List Nat)) (c : Confirmation) : Option (List Nat) :=
  match acc with
  | none => none
  | some bs =>
    if c.signature = "" then some bs
    else
      match sigBytes c with
      | none => none
      | some b => some (bs ++ b)

/-- Embeds `collect_and_sort_signatures(transaction)` from
`helpers/execute_transaction.py`: bail out on a missing or empty
`confirmations` list, sort by lower-cased owner, then concatenate each
non-empty signature's bytes, skipping falsy signatures; an all-empty
aggregate returns `None`. -/
def collect_and_sort_signatures (tx : RawFeedTx) : SigResult :=
  match tx.confirmations with
  | none => .retNone
  | some [] => .retNone
  | some confs =>
    let sorted := List.insertionSort ownerLe confs
    match sorted.foldl sigStep (some []) with
    | none => .raised
    | some [] => .retNone
    | some bs => .sigs bs

/-! ## Execution gate — `commands/hot.py` and `main.py` -/

/-- Rejection reasons reported by the gate paths (each corresponds to one
`ctx.send`/`print` branch in the source). -/
inductive Reason where
  | pausedGate : Reason
  | noPending : Reason
  | decodeFailed : Reason
  | insufficientSignatures : Reason
  | insufficientBalance : Reason
  | txNotFound : Reason
deriving DecidableEq, Repr

/-- Outcome of one gate evaluation: `submitted` means the path reached the
`execute_transaction` call; `rejected r` means it stopped with the report
for `r`; `silentSkip` means it fell through with no submission and no
report (only the periodic tick has such a path). -/
inductive Outcome where
  | submitted : Outcome
  | rejected (r : Reason) : Outcome
  | silentSkip : Outcome
deriving DecidableEq, Repr

/-- Models `decode_hex_data(hex_data) if hex_data else \x7b\x7d` on the lowest pending
transaction; `none` stands for both the empty dict and `None` (the two
falsy results the source then treats alike). -/
def txDecoded (tx : SafeTx) : Option DecodedPayload :=
  if tx.dataHex = "" then none else decode_hex_data tx.dataHex

/-- Models `float(decoded.get("amountInTokens", 0.0)) if decoded else 0.0`. -/
def txAmount (tx : SafeTx) : ℚ :=
  match txDecoded tx with
  | some p => pyFloat p.amountInTokens
  | none => 0

/-- The body of `_run_execute_command` from the empty-queue check onward,
on the normalized pending list. -/
def gateOnPending (check_balance allow_no_data : Bool) (staking_balance : ℚ)
    (fetchFound : Bool) : List SafeTx → Outcome
  | [] => .rejected .noPending
  | lowest :: _ =>
    if ¬allow_no_data ∧ (txDecoded lowest).isNone then .rejected .decodeFailed
    else if lowest.signature_count < lowest.confirmations_required then
      .rejected .insufficientSignatures
    else if check_balance ∧ staking_balance < txAmount lowest then
      .rejected .insufficientBalance
    else if ¬fetchFound then .rejected .txNotFound
    else .submitted

/-- Embeds `_run_execute_command` from `commands/hot.py`, shared by the four
commands.  Inputs: the three per-command flags, the pause flag, the staking
balance (as the value after line 35's rounding), the fetched transaction
list (normalized internally exactly as the source calls
`filter_and_sort_pending_transactions`), and whether
`fetch_transaction_by_nonce` finds the record.  The check order mirrors the
source: pause gate, empty queue, decode (unless the no-data branch is
allowed), signature threshold, balance (when checked), fetch-by-nonce,
then submission. -/
def runExecuteCommand (check_pause check_balance allow_no_data paused : Bool)
    (staking_balance : ℚ) (transactions : List SafeTx) (fetchFound : Bool) : Outcome :=
  if check_pause ∧ paused then .rejected .pausedGate
  else
    gateOnPending check_balance allow_no_data staking_balance fetchFound
      (filter_and_sort_pending_transactions transactions)

/-- The tick's per-pending decision on the normalized pending list (the
paused note is appended whether or not the list is empty). -/
def tickOnPending (paused : Bool) (staking_balance : ℚ) (fetchFound : Bool) :
    List SafeTx → Outcome
  | [] => if paused then .rejected .pausedGate else .silentSkip
  | lowest :: _ =>
    if paused then .rejected .pausedGate
    else
      match txDecoded lowest with
      | none => .silentSkip
      | some p =>
        if lowest.signature_count ≥ lowest.confirmations_required ∧
            staking_balance ≥ pyFloat p.amountInTokens then
          if fetchFound then .submitted else .rejected .txNotFound
        else if lowest.signature_count < lowest.confirmations_required then
          .rejected .insufficientSignatures
        else .rejected .insufficientBalance

/-- The periodic tick's automated execution decision (`main.py`,
`periodic_recheck`, lines 196-270): when paused it only appends the paused
note; otherwise it acts only if the lowest transaction's calldata decoded
(`if decoded:` — an undecodable or absent payload falls through silently),
requiring the signature threshold and the balance before fetching and
submitting. -/
def periodicTickExec (paused : Bool) (transactions : List SafeTx)
    (staking_balance : ℚ) (fetchFound : Bool) : Outcome :=
  tickOnPending paused staking_balance fetchFound
    (filter_and_sort_pending_transactions transactions)

/-- Result of the tick's bounded-retry execution loop (`main.py`, lines
216-261): how many `execute_transaction` submissions were made, the pause
flag afterwards, whether the circuit-breaker alert was broadcast, and
whether a submission succeeded. -/
structure ExecRunResult where
  submissions : Nat
  pausedAfter : Bool
  alerted : Bool
  succeeded : Bool
deriving DecidableEq, Repr

/-- The `while attempts < 3` loop body: check the pause flag, submit, stop
on success, otherwise retry; when the loop exhausts its three attempts the
code sets `paused = True` and broadcasts the circuit-breaker alert.
`results i` is the receipt status of the `i`-th submission; `paused` is the
automation flag (constant here: no operator command races with the loop in
this model). -/
def execRetryGo (results : Nat → Bool) (paused : Bool) : Nat → Nat → ExecRunResult
  | i, 0 => ⟨i, true, true, false⟩
  | i, r + 1 =>
    if paused then ⟨i, paused, false, false⟩
    else if results i then ⟨i + 1, paused, false, true⟩
    else execRetryGo results paused (i + 1) r

/-- The tick's execution loop entered with automation running
(`paused = False`) and a budget of three attempts. -/
def periodicExecutionRun (results : Nat → Bool) : ExecRunResult :=
  execRetryGo results false 0 3

/-! ## Deposit monitor — `helpers/deposit_monitor.py` -/

/-- One deposit event log, already parsed: `blockNumber` is the log's block
(the source accepts both hex strings and ints and converts to int),
`amountWei` the first 32-byte word of the `data` field. -/
structure DepositLog where
  blockNumber : Nat
  amountWei : Nat
deriving DecidableEq, Repr

/-- Post-retry outcome of each API endpoint a probe run touches; a `none`
field models `make_request` returning `None` after exhausting its retries
for that call. -/
structure ProbeEnv where
  blockTimeResult : Option Nat
  headResult : Option Nat
  logsResult : Option (List DepositLog)
deriving DecidableEq, Repr

/-- The messages `check_large_deposits_with_block` / `run_deposit_probe`
can return, by their construction site. -/
inductive ProbeMsg where
  | errorBlockTime : ProbeMsg
  | errorHead : ProbeMsg
  | errorLogs : ProbeMsg
  | alertMessage : ProbeMsg
  | placeholder : ProbeMsg
  | noDepositsSummary (startB : Option Nat) (lastB : Option Nat) : ProbeMsg
deriving DecidableEq, Repr

/-- Constant `FLAG_THRESHOLD` — flag deposits of at least 100,000 tokens. -/
def FLAG_THRESHOLD : Nat := 100000

/-- Predicate `deposit_amount >= FLAG_THRESHOLD` for one log, after the wei value is
scaled down by `10**18`. -/
def logIsLarge (l : DepositLog) : Bool :=
  decide ((FLAG_THRESHOLD : ℚ) ≤ (l.amountWei : ℚ) / 10 ^ 18)

/-- The checkpoint candidate of one scan: the maximum block number across
the returned logs, or the resolved chain head when no logs were found
(`last_block_scanned` in `check_large_deposits_with_block`). -/
def probeNewLast (head : Nat) (logs : List DepositLog) : Nat :=
  match logs with
  | [] => head
  | l :: ls => ls.foldl (fun a x => max a x.blockNumber) l.blockNumber

/-- Embeds `check_large_deposits_with_block(start_block)`: resolve the start block
(time lookup only when none was supplied), fetch the chain head, fetch the
logs — each failure aborting with its error message and no checkpoint —
then classify the logs and return
`(alert_triggered, message, last_block_scanned)`. -/
def check_large_deposits_with_block (startArg : Option Nat) (env : ProbeEnv) :
    Bool × ProbeMsg × Option Nat :=
  let startResolved : Option Nat :=
    match startArg with
    | some sb => some sb
    | none => env.blockTimeResult
  match startResolved with
  | none => (false, .errorBlockTime, none)
  | some _ =>
    match env.headResult with
    | none => (false, .errorHead, none)
    | some head =>
      match env.logsResult with
      | none => (false, .errorLogs, none)
      | some logs =>
        let last := probeNewLast head logs
        let alert := logs.any logIsLarge
        (alert, if alert then .alertMessage else .placeholder, some last)

/-- Embeds `run_deposit_probe(start_block=None)` as invoked by the scheduler tick:
derive the start block from the persisted checkpoint (`checkpoint + 1`),
run the check, persist the new checkpoint only when one was produced, and
overwrite the message with the "no deposits found between blocks X and Y"
summary whenever no alert fired.  Returns the probe's
`(alert_triggered, message, start_block, new_last_block)` tuple together
with the checkpoint store's state after the run. -/
def run_deposit_probe (persisted : Option Nat) (env : ProbeEnv) :
    (Bool × ProbeMsg × Option Nat × Option Nat) × Option Nat :=
  let startBlock := persisted.map (· + 1)
  let res := check_large_deposits_with_block startBlock env
  let alert := res.1
  let newLast := res.2.2
  let store := match newLast with
    | some _ => newLast
    | none => persisted
  let msg := if alert then res.2.1 else .noDepositsSummary startBlock newLast
  ((alert, msg, startBlock, newLast), store)

/-- A sequence of successful probe scans, each described by its resolved
chain head and returned logs, folded through `run_deposit_probe`. -/
def runProbeSeq : Option Nat → List (Nat × List DepositLog) → Option Nat
  | c, [] => c
  | c, (head, logs) :: rest =>
    runProbeSeq (run_deposit_probe c ⟨none, some head, some logs⟩).2 rest

/-- Environment well-formedness of a scan sequence starting from checkpoint
`c`: each scan's resolved head is at least the current checkpoint (chain
heads do not move backwards past scanned blocks) and every returned log
lies inside the queried range `[c + 1, …]`. -/
def validScansB : Nat → List (Nat × List DepositLog) → Bool
  | _, [] => true
  | c, (head, logs) :: rest =>
    (c ≤ head) && logs.all (fun l => c + 1 ≤ l.blockNumber) &&
      validScansB (probeNewLast head logs) rest

/-! ## Chunked historical scanners — `check_large_deposits_custom`,
`fetch_all_deposits_custom` -/

/-- Constant `MIN_BLOCK_CHUNK` — minimum chunk size before failing completely. -/
def MIN_BLOCK_CHUNK : Nat := 3125

/-- Constant `BLOCK_CHUNK_SIZE` initial value for the deep scans. -/
def INITIAL_BLOCK_CHUNK : Nat := 25000

/-- Result of a chunked scan: the block ranges of the successfully fetched
chunks (`none` when the scan aborted with a hard failure), the number of
`make_request` calls issued, and the final chunk size. -/
structure ScanOutcome where
  ranges : Option (List (Nat × Nat))
  attempts : Nat
  finalChunk : Nat
deriving DecidableEq, Repr

/-- The chunk walk shared by `check_large_deposits_custom` and
`fetch_all_deposits_custom` (their loops are line-for-line identical except
for the floor-exhaustion policy, selected by `hardFail`).  `oracle k` tells
whether the `k`-th `make_request` call returns a usable response.  Per
chunk the inner `while retries < RETRY_LIMIT` loop makes at most two
attempts; when both fail the chunk size is halved if still above the floor
(`BLOCK_CHUNK_SIZE = max(BLOCK_CHUNK_SIZE // 2, MIN_BLOCK_CHUNK)`), the
floor-exhaustion check fires when the (possibly just-halved) size equals
the floor, and otherwise the loop advances with
`current_start_block = current_end_block + 1` — also after a failed chunk.
`fuel` bounds the recursion; every run below instantiates it large enough
that it is never exhausted. -/
def chunkedScanGo (oracle : Nat → Bool) (hardFail : Bool) (latest : Nat) :
    Nat → Nat → Nat → Nat → List (Nat × Nat) → ScanOutcome
  | 0, chunkSize, _, k, _ => ⟨none, k, chunkSize⟩
  | fuel + 1, chunkSize, curStart, k, acc =>
    if curStart ≤ latest then
      let curEnd := min (curStart + chunkSize) latest
      if oracle k then
        chunkedScanGo oracle hardFail latest fuel chunkSize (curEnd + 1) (k + 1)
          (acc ++ [(curStart, curEnd)])
      else if oracle (k + 1) then
        chunkedScanGo oracle hardFail latest fuel chunkSize (curEnd + 1) (k + 2)
          (acc ++ [(curStart, curEnd)])
      else
        let chunk2 := if MIN_BLOCK_CHUNK < chunkSize
          then max (chunkSize / 2) MIN_BLOCK_CHUNK else chunkSize
        if chunk2 = MIN_BLOCK_CHUNK then
          if hardFail then ⟨none, k + 2, chunk2⟩ else ⟨some acc, k + 2, chunk2⟩
        else chunkedScanGo oracle hardFail latest fuel chunk2 (curEnd + 1) (k + 2) acc
    else ⟨some acc, k, chunkSize⟩

/-- The chunk walk of `check_large_deposits_custom` over `[startB, latestB]`
(floor exhaustion is a hard failure for this caller). -/
def check_large_deposits_custom_scan (oracle : Nat → Bool)
    (startB latestB fuel : Nat) : ScanOutcome :=
  chunkedScanGo oracle true latestB fuel INITIAL_BLOCK_CHUNK startB 0 []

/-- The chunk walk of `fetch_all_deposits_custom` (floor exhaustion breaks
out with the partial results for this caller). -/
def fetch_all_deposits_custom_scan (oracle : Nat → Bool)
    (startB latestB fuel : Nat) : ScanOutcome :=
  chunkedScanGo oracle false latestB fuel INITIAL_BLOCK_CHUNK startB 0 []

/-- Whether block `b` lies in one of the completed chunk ranges. -/
def coversBlock (ranges : List (Nat × Nat)) (b : Nat) : Bool :=
  ranges.any (fun p => p.1 ≤ b && b ≤ p.2)

/-! ## Resilient request executor — `make_request` and the retry loop of
`fetch_recent_transactions`

Attempt outcomes distinguish the failure categories the claims name: a
non-2xx response (`raise_for_status`), a transport error, a body that is
not JSON, and a JSON object of the wrong shape.  Bodies are modelled as
typed JSON objects (association lists) because that is the shape both
upstream APIs produce; within it the Python code is total, so the models'
totality mirrors "never raises". -/

/-- Generic association-list field lookup, modelling `"k" in obj` /
`obj.get("k", default)`. -/
def lookupField {α : Type} : List (String × α) → String → Option α
  | [], _ => none
  | (k', v) :: rest, k => if k' = k then some v else lookupField rest k

/-- One attempt's outcome for `make_request` (Etherscan-style endpoints);
field values are the numeric payloads the callers read. -/
inductive MakeResp where
  | httpError : MakeResp
  | transportError : MakeResp
  | nonJsonBody : MakeResp
  | jsonBody (obj : List (String × Nat)) : MakeResp
deriving DecidableEq, Repr

/-- One attempt's outcome for `fetch_recent_transactions` (the Safe feed):
a well-shaped body maps field names to transaction lists. -/
inductive FetchResp where
  | httpError : FetchResp
  | transportError : FetchResp
  | nonJsonBody : FetchResp
  | jsonBody (fields : List (String × List RawFeedTx)) : FetchResp
deriving DecidableEq, Repr

/-- Trace of one retry-loop run: final value, number of attempts made
(responses consumed), and the argument of each `time.sleep` call issued. -/
structure RetryTrace (α : Type) where
  result : α
  attempts : Nat
  sleeps : List Nat
deriving DecidableEq, Repr

/-- The `for attempt in range(MAX_RETRIES)` loop of `make_request`
(`helpers/deposit_monitor.py`): sleep `delay` before every attempt, return
the parsed body when it is JSON and has a `result` field, treat everything
else (HTTP error, transport error, non-JSON body, body without `result`)
as a failed attempt, and double the delay after each failure. -/
def makeRequestGo (responses : Nat → MakeResp) :
    Nat → Nat → Nat → List Nat → RetryTrace (Option (List (String × Nat)))
  | 0, i, _, sleeps => ⟨none, i, sleeps⟩
  | r + 1, i, delay, sleeps =>
    let sleeps := sleeps ++ [delay]
    match responses i with
    | .jsonBody obj =>
      if (lookupField obj "result").isSome then ⟨some obj, i + 1, sleeps⟩
      else makeRequestGo responses r (i + 1) (delay * 2) sleeps
    | _ => makeRequestGo responses r (i + 1) (delay * 2) sleeps

/-- Embeds `make_request(url)`: `MAX_RETRIES = 5`, `INITIAL_DELAY = 1`; returns
`None` after exhausting all retries. -/
def make_request (responses : Nat → MakeResp) :
    RetryTrace (Option (List (String × Nat))) :=
  makeRequestGo responses 5 0 1 []

/-- The `for attempt in range(MAX_RETRIES)` loop of
`fetch_recent_transactions` (`helpers/fetch_transactions.py`): a JSON body
is always a success — `response.json().get("results", [])` falls back to
the empty list when the field is missing — and each transaction is
annotated; HTTP errors, transport errors and non-JSON bodies are failed
attempts, sleeping `delay` (then doubling it) after each failure except
the last. -/
def fetchRecentGo (responses : Nat → FetchResp) :
    Nat → Nat → Nat → List Nat → RetryTrace (List SafeTx)
  | 0, i, _, sleeps => ⟨[], i, sleeps⟩
  | r + 1, i, delay, sleeps =>
    match responses i with
    | .jsonBody fields =>
      ⟨((lookupField fields "results").getD []).map annotate, i + 1, sleeps⟩
    | _ =>
      if r = 0 then fetchRecentGo responses r (i + 1) delay sleeps
      else fetchRecentGo responses r (i + 1) (delay * 2) (sleeps ++ [delay])

/-- Embeds `fetch_recent_transactions(limit=15)`: `MAX_RETRIES = 4`, initial delay
1 second; returns the empty list as graceful fallback after exhausting all
retries. -/
def fetch_recent_transactions (responses : Nat → FetchResp) : RetryTrace (List SafeTx) :=
  fetchRecentGo responses 4 0 1 []

/-- The claim's reading of the fetch loop, written from the specification's
words for comparison with the source-derived `fetchRecentGo`: a JSON body
of the wrong shape (object without a `results` field) also counts as a
failed attempt and is retried. -/
def fetchSpecReadingGo (responses : Nat → FetchResp) :
    Nat → Nat → Nat → List Nat → RetryTrace (List SafeTx)
  | 0, i, _, sleeps => ⟨[], i, sleeps⟩
  | r + 1, i, delay, sleeps =>
    match responses i with
    | .jsonBody fields =>
      match lookupField fields "results" with
      | some results => ⟨results.map annotate, i + 1, sleeps⟩
      | none =>
        if r = 0 then fetchSpecReadingGo responses r (i + 1) delay sleeps
        else fetchSpecReadingGo responses r (i + 1) (delay * 2) (sleeps ++ [delay])
    | _ =>
      if r = 0 then fetchSpecReadingGo responses r (i + 1) delay sleeps
      else fetchSpecReadingGo responses r (i + 1) (delay * 2) (sleeps ++ [delay])

/-- The spec-side fetch loop with the source's retry budget. -/
def fetch_recent_transactions_specReading (responses : Nat → FetchResp) :
    RetryTrace (List SafeTx) :=
  fetchSpecReadingGo responses 4 0 1 []

/-! ## Claim C1 — normalizer exclusion of executed nonces -/

/-- An executed record for nonce 1, submitted first. -/
def c1ExecutedRecord : SafeTx := ⟨1, true, "2024-01-01T00:00:00Z", "", 0, 0⟩

/-- A still-pending record for nonce 1 with a later `submissionDate`. -/
def c1PendingRecord : SafeTx := ⟨1, false, "2024-01-02T00:00:00Z", "", 2, 3⟩

/-- C1: the claim says the normalizer yields no entry for a nonce once any
record with that nonce has `isExecuted = true`, regardless of order or
`submissionDate`.  Evaluating the code at the failing input: with the
executed record first and a later-dated pending record second, the pending
record overwrites the executed occupant of the nonce's slot and the nonce
is yielded; with the iteration order reversed the nonce is excluded — the
exclusion depends on both order and `submissionDate`, contradicting the
claim (and the source's own comment "remove all others with the same
nonce"). -/
theorem c1_executed_nonce_resurfaces :
    c1ExecutedRecord.isExecuted = true ∧
    c1ExecutedRecord.nonce = 1 ∧ c1PendingRecord.nonce = 1 ∧
    filter_and_sort_pending_transactions [c1ExecutedRecord, c1PendingRecord] =
      [c1PendingRecord] ∧
    (filter_and_sort_pending_transactions
        [c1ExecutedRecord, c1PendingRecord]).map SafeTx.nonce = [1] ∧
    filter_and_sort_pending_transactions [c1PendingRecord, c1ExecutedRecord] = [] := by
  decide

/-! ## Claim C2 — chunked scan retry/halving and range coverage -/

/-- Failure oracle for the chunked scan: the first two `make_request` calls
fail (so the first chunk exhausts its retry limit), every later call
succeeds. -/
def c2Oracle : Nat → Bool := fun k => decide (2 ≤ k)

/-- C2: the claim says that after a chunk exhausts its retry limit above
the floor, the scanner halves the chunk size and continues from the same
unfinished chunk start, so completed chunks cover `[start, head]` exactly.
Evaluating the code on `[0, 30000]` with the first chunk `[0, 25000]`
failing twice: the chunk size is indeed halved to 12500, but the walk then
advances to block 25001 — the failed chunk is never re-queried, the scan
reports success after one more (successful) chunk `[25001, 30000]`, and no
completed range contains blocks 0..25000.  Both scan variants behave
identically.  This contradicts the claim (and the source's own log line
"Reducing block chunk size … and retrying"). -/
theorem c2_failed_chunk_skipped :
    check_large_deposits_custom_scan c2Oracle 0 30000 40 =
      ⟨some [(25001, 30000)], 3, 12500⟩ ∧
    fetch_all_deposits_custom_scan c2Oracle 0 30000 40 =
      ⟨some [(25001, 30000)], 3, 12500⟩ ∧
    coversBlock [(25001, 30000)] 0 = false ∧
    coversBlock [(25001, 30000)] 25000 = false := by
  decide

/-! ## Claim C3 — probe failure surfaces an explicit error message -/

/-- Probe environment in which the log fetch fails after all retries
(block-time and head lookups would succeed). -/
def c3Env : ProbeEnv := ⟨some 999, some 150, none⟩

/-- C3: the claim says a failed run returns `alertTriggered = false`
together with an explicit error message and `newCheckpoint = none`,
leaving the stored checkpoint untouched.  Evaluating the code with a
persisted checkpoint of 100 and a log fetch that fails: the inner check
does produce the explicit error result, `alertTriggered` is `false`,
`newCheckpoint` is `none` and the store keeps 100 — but `run_deposit_probe`
then overwrites the message on its `not alert_triggered` path, returning
the "no deposits found between blocks 101 and None" success summary
instead of the error message. -/
theorem c3_error_message_masked :
    check_large_deposits_with_block (some 101) c3Env = (false, .errorLogs, none) ∧
    run_deposit_probe (some 100) c3Env =
      ((false, .noDepositsSummary (some 101) none, some 101, none), some 100) ∧
    ProbeMsg.noDepositsSummary (some 101) none ≠ ProbeMsg.errorLogs := by
  decide

/-! ## Claim C5 — circuit breaker after three consecutive reverts -/

/-- C5: if every submission of the tick's execution loop reverts, the loop
makes exactly three submissions, then sets `paused = true` and broadcasts
the circuit-breaker alert; and while `paused` remains set, a subsequent
tick never reaches a submission — there is no fourth attempt until an
operator resumes. -/
theorem c5_circuit_breaker (results : Nat → Bool) (h : ∀ i, results i = false) :
    periodicExecutionRun results = ⟨3, true, true, false⟩ ∧
    (∀ (txs : List SafeTx) (bal : ℚ) (ff : Bool),
      periodicTickExec true txs bal ff ≠ .submitted) := by
  constructor
  · simp [periodicExecutionRun, execRetryGo, h 0, h 1, h 2]
  · intro txs bal ff
    unfold periodicTickExec
    cases filter_and_sort_pending_transactions txs with
    | nil => simp [tickOnPending]
    | cons lo rest => simp [tickOnPending]

/-- C5 witness: the all-revert oracle realizes the hypothesis. -/
theorem c5_circuit_breaker_witness :
    periodicExecutionRun (fun _ => false) = ⟨3, true, true, false⟩ ∧
    (∀ (txs : List SafeTx) (bal : ℚ) (ff : Bool),
      periodicTickExec true txs bal ff ≠ .submitted) :=
  c5_circuit_breaker (fun _ => false) (fun _ => rfl)

/-! ## Claim C8 — decoding the concrete delegate calldata -/

/-- Calldata: the `delegate` selector `d9a34952`, then two 32-byte words
encoding `validatorId = 7` and `amount = 2500 * 10^18` wei. -/
def c8Calldata : String :=
  "0xd9a3495200000000000000000000000000000000000000000000000000000000000000070000000000000000000000000000000000000000000000878678326eac900000"

/-- The payload the claim says is returned: `amountInTokens` as the float
`2500.0`. -/
def c8ClaimedPayload : DecodedPayload := ⟨"7", .float 2500⟩

set_option maxRecDepth 100000 in
theorem c8_eval :
    decode_hex_data c8Calldata = some ⟨"7", .str "2500.0"⟩ := by
  have h1 : decode_hex_data c8Calldata =
      some ⟨"7", .str (pyFloatRepr (((2500000000000000000000 : Nat) : ℚ) / 10 ^ 18))⟩ := by
    rfl
  have h2 : (((2500000000000000000000 : Nat) : ℚ) / 10 ^ 18) = ((2500 : Nat) : ℚ) := by
    norm_num
  have h3 : pyFloatRepr ((2500 : Nat) : ℚ) = "2500.0" := by decide
  rw [h1, h2, h3]

/-- C8 counterexample: the code returns
`{"validatorId": "7", "amountInTokens": "2500.0"}` — the amount is the
*string* `str(2500.0)`, not the float `2500.0` the claim states (every
caller converts it back with `float(...)`). -/
theorem c8_counterexample :
    decode_hex_data c8Calldata = some ⟨"7", .str "2500.0"⟩ ∧
    decode_hex_data c8Calldata ≠ some c8ClaimedPayload := by
  refine ⟨c8_eval, ?_⟩
  rw [c8_eval]
  decide

/-- C8 amended: for the concrete calldata
`0xd9a34952 ++ word(7) ++ word(2500 * 10^18)`, `decode_hex_data` returns
`{validatorId: "7", amountInTokens: "2500.0"}`, the amount being the
decimal string produced by `str(...)`. -/
theorem c8_amended :
    decode_hex_data c8Calldata = some ⟨"7", PyScalar.str "2500.0"⟩ :=
  c8_eval

/-! ## Claim C10 — annotation defaults and the zero-threshold consequence -/

/-- C10: `fetch_recent_transactions` annotates each transaction with
`signature_count = len(confirmations or [])` and
`confirmations_required = confirmationsRequired or 0 when absent`; a feed
record without `confirmationsRequired` therefore passes the
signature-threshold check with zero signatures, so the gate can never
reject it for insufficient signatures. -/
theorem c10_annotation_defaults (tx : RawFeedTx) :
    (annotate tx).signature_count = (tx.confirmations.getD []).length ∧
    (annotate tx).confirmations_required = tx.confirmationsRequired.getD 0 ∧
    (tx.confirmationsRequired = none →
      ¬ (annotate tx).signature_count < (annotate tx).confirmations_required ∧
      ∀ (cp cb ad paused ff : Bool) (bal : ℚ) (txs : List SafeTx),
        runExecuteCommand cp cb ad paused bal txs ff = .rejected .insufficientSignatures →
        ∃ lo rest, filter_and_sort_pending_transactions txs = lo :: rest ∧
          lo.signature_count < lo.confirmations_required ∧
          (lo = annotate tx → False)) := by
  refine ⟨rfl, rfl, fun hnone => ⟨by simp [annotate, hnone], ?_⟩⟩
  intro cp cb ad paused ff bal txs h
  unfold runExecuteCommand at h
  by_cases hcp : cp = true ∧ paused = true
  · rw [if_pos hcp] at h
    exact absurd h (by decide)
  · rw [if_neg hcp] at h
    cases hfs : filter_and_sort_pending_transactions txs with
    | nil =>
      rw [hfs] at h
      simp [gateOnPending] at h
    | cons lo rest =>
      rw [hfs] at h
      simp only [gateOnPending] at h
      refine ⟨lo, rest, rfl, ?_⟩
      by_cases h1 : ¬ad = true ∧ (txDecoded lo).isNone = true
      · rw [if_pos h1] at h
        exact absurd h (by decide)
      · rw [if_neg h1] at h
        by_cases h2 : lo.signature_count < lo.confirmations_required
        · refine ⟨h2, fun he => ?_⟩
          rw [he] at h2
          simp [annotate, hnone] at h2
        · rw [if_neg h2] at h
          by_cases h3 : cb = true ∧ bal < txAmount lo
          · rw [if_pos h3] at h
            exact absurd h (by decide)
          · rw [if_neg h3] at h
            by_cases h4 : ¬ff = true
            · rw [if_pos h4] at h
              exact absurd h (by decide)
            · rw [if_neg h4] at h
              exact absurd h (by decide)

/-- C10 witness: a concrete feed record with two confirmations but no
`confirmationsRequired` field. -/
def c10FeedTx : RawFeedTx :=
  ⟨4, false, "2024-03-01T00:00:00Z", "",
   some [⟨"0xAA", "0x01"⟩, ⟨"0xBB", "0x02"⟩], none⟩

theorem c10_annotation_defaults_witness :
    (annotate c10FeedTx).signature_count = 2 ∧
    (annotate c10FeedTx).confirmations_required = 0 ∧
    ¬ (annotate c10FeedTx).signature_count < (annotate c10FeedTx).confirmations_required := by
  have h := c10_annotation_defaults c10FeedTx
  exact ⟨by decide, by decide, (h.2.2 rfl).1⟩

/-! ## Claim C4 — the signature threshold across all gate variants -/

/-- A pending transaction with no calldata and 0 of 1 required signatures. -/
def c4UndecodableTx : SafeTx := ⟨7, false, "2024-02-02T00:00:00Z", "", 0, 1⟩

/-- C4 counterexample: on the periodic tick's automated path, a
lowest-nonce pending transaction whose calldata does not decode and whose
signature count is below the threshold produces *no* reported rejection —
the tick falls through silently (`if decoded:` guards the whole block), so
"a specific rejection is reported" fails on that path (no submission is
attempted either). -/
theorem c4_counterexample :
    c4UndecodableTx.signature_count < c4UndecodableTx.confirmations_required ∧
    filter_and_sort_pending_transactions [c4UndecodableTx] = [c4UndecodableTx] ∧
    txDecoded c4UndecodableTx = none ∧
    periodicTickExec false [c4UndecodableTx] 0 true = .silentSkip ∧
    (∀ r : Reason, Outcome.silentSkip ≠ Outcome.rejected r) ∧
    Outcome.silentSkip ≠ Outcome.submitted := by
  refine ⟨by decide, by decide, by decide, by decide, ?_, by decide⟩
  intro r h
  exact Outcome.noConfusion h

/-- C4 amended: when the lowest-nonce pending transaction's signature count
is below its required confirmations, every command variant reports a
specific rejection and never submits; the periodic tick never submits
either, reporting a rejection whenever it is paused or the calldata
decodes (and skipping silently otherwise); and on every one of these paths
a submission implies the signature threshold held — the check cannot be
bypassed. -/
theorem c4_signature_gate (paused ff : Bool) (bal : ℚ) (txs : List SafeTx)
    (lowest : SafeTx) (rest : List SafeTx)
    (hp : filter_and_sort_pending_transactions txs = lowest :: rest)
    (hsig : lowest.signature_count < lowest.confirmations_required) :
    (∀ cp cb ad : Bool, ∃ r : Reason,
      runExecuteCommand cp cb ad paused bal txs ff = .rejected r) ∧
    periodicTickExec paused txs bal ff ≠ .submitted ∧
    (paused = true ∨ (txDecoded lowest).isSome = true →
      ∃ r : Reason, periodicTickExec paused txs bal ff = .rejected r) ∧
    (∀ (cp cb ad paused' ff' : Bool) (bal' : ℚ) (txs' : List SafeTx),
      runExecuteCommand cp cb ad paused' bal' txs' ff' = .submitted →
      ∃ lo re, filter_and_sort_pending_transactions txs' = lo :: re ∧
        lo.confirmations_required ≤ lo.signature_count) ∧
    (∀ (paused' ff' : Bool) (bal' : ℚ) (txs' : List SafeTx),
      periodicTickExec paused' txs' bal' ff' = .submitted →
      ∃ lo re, filter_and_sort_pending_transactions txs' = lo :: re ∧
        lo.confirmations_required ≤ lo.signature_count) := by
  refine ⟨?_, ?_, ?_, ?_, ?_⟩
  · intro cp cb ad
    unfold runExecuteCommand
    by_cases hcp : cp = true ∧ paused = true
    · exact ⟨.pausedGate, if_pos hcp⟩
    · rw [if_neg hcp, hp]
      simp only [gateOnPending]
      by_cases h1 : ¬ad = true ∧ (txDecoded lowest).isNone = true
      · exact ⟨.decodeFailed, if_pos h1⟩
      · rw [if_neg h1, if_pos hsig]
        exact ⟨.insufficientSignatures, rfl⟩
  · unfold periodicTickExec
    rw [hp]
    simp only [tickOnPending]
    by_cases hpa : paused = true
    · rw [if_pos hpa]; decide
    · rw [if_neg hpa]
      cases hdec : txDecoded lowest with
      | none => dsimp only; decide
      | some p =>
        dsimp only
        rw [if_neg (show ¬(lowest.signature_count ≥ lowest.confirmations_required ∧
            bal ≥ pyFloat p.amountInTokens) from
          fun hc => absurd hc.1 (Nat.not_le.mpr hsig)), if_pos hsig]
        decide
  · intro hor
    unfold periodicTickExec
    rw [hp]
    simp only [tickOnPending]
    by_cases hpa : paused = true
    · rw [if_pos hpa]; exact ⟨.pausedGate, rfl⟩
    · rw [if_neg hpa]
      cases hdec : txDecoded lowest with
      | none =>
        rcases hor with hor | hor
        · exact absurd hor hpa
        · rw [hdec] at hor; cases hor
      | some p =>
        dsimp only
        rw [if_neg (show ¬(lowest.signature_count ≥ lowest.confirmations_required ∧
            bal ≥ pyFloat p.amountInTokens) from
          fun hc => absurd hc.1 (Nat.not_le.mpr hsig)), if_pos hsig]
        exact ⟨.insufficientSignatures, rfl⟩
  · intro cp cb ad paused' ff' bal' txs' h
    unfold runExecuteCommand at h
    by_cases hcp : cp = true ∧ paused' = true
    · rw [if_pos hcp] at h; exact absurd h (by decide)
    · rw [if_neg hcp] at h
      cases hfs : filter_and_sort_pending_transactions txs' with
      | nil => rw [hfs] at h; simp [gateOnPending] at h
      | cons lo re =>
        rw [hfs] at h
        simp only [gateOnPending] at h
        refine ⟨lo, re, rfl, ?_⟩
        by_cases h1 : ¬ad = true ∧ (txDecoded lo).isNone = true
        · rw [if_pos h1] at h; exact absurd h (by decide)
        · rw [if_neg h1] at h
          by_cases h2 : lo.signature_count < lo.confirmations_required
          · rw [if_pos h2] at h; exact absurd h (by decide)
          · exact Nat.not_lt.mp h2
  · intro paused' ff' bal' txs' h
    unfold periodicTickExec at h
    cases hfs : filter_and_sort_pending_transactions txs' with
    | nil =>
      rw [hfs] at h
      simp only [tickOnPending] at h
      by_cases hpa : paused' = true
      · rw [if_pos hpa] at h; exact absurd h (by decide)
      · rw [if_neg hpa] at h; exact absurd h (by decide)
    | cons lo re =>
      rw [hfs] at h
      simp only [tickOnPending] at h
      refine ⟨lo, re, rfl, ?_⟩
      by_cases hpa : paused' = true
      · rw [if_pos hpa] at h; exact absurd h (by decide)
      · rw [if_neg hpa] at h
        cases hdec : txDecoded lo with
        | none =>
          rw [hdec] at h
          dsimp only at h
          exact absurd h (by decide)
        | some p =>
          rw [hdec] at h
          dsimp only at h
          by_cases hcond : lo.signature_count ≥ lo.confirmations_required ∧
              bal' ≥ pyFloat p.amountInTokens
          · exact hcond.1
          · rw [if_neg hcond] at h
            by_cases h2 : lo.signature_count < lo.confirmations_required
            · rw [if_pos h2] at h; exact absurd h (by decide)
            · rw [if_neg h2] at h; exact absurd h (by decide)

/-- A pending transaction with 1 of 2 required signatures. -/
def c4WitnessTx : SafeTx := ⟨5, false, "2024-01-01T00:00:00Z", "", 1, 2⟩

/-- C4 witness: the amended gate property at a concrete state. -/
theorem c4_signature_gate_witness :
    (∀ cp cb ad : Bool, ∃ r : Reason,
      runExecuteCommand cp cb ad false 0 [c4WitnessTx] true = .rejected r) ∧
    periodicTickExec false [c4WitnessTx] 0 true ≠ .submitted ∧
    (false = true ∨ (txDecoded c4WitnessTx).isSome = true →
      ∃ r : Reason, periodicTickExec false [c4WitnessTx] 0 true = .rejected r) ∧
    (∀ (cp cb ad paused' ff' : Bool) (bal' : ℚ) (txs' : List SafeTx),
      runExecuteCommand cp cb ad paused' bal' txs' ff' = .submitted →
      ∃ lo re, filter_and_sort_pending_transactions txs' = lo :: re ∧
        lo.confirmations_required ≤ lo.signature_count) ∧
    (∀ (paused' ff' : Bool) (bal' : ℚ) (txs' : List SafeTx),
      periodicTickExec paused' txs' bal' ff' = .submitted →
      ∃ lo re, filter_and_sort_pending_transactions txs' = lo :: re ∧
        lo.confirmations_required ≤ lo.signature_count) :=
  c4_signature_gate false true 0 [c4WitnessTx] c4WitnessTx [] (by decide) (by decide)

/-! ## Claim C6 — checkpoint monotonicity and quiet-window advancement -/

theorem le_foldl_maxBlock (ls : List DepositLog) :
    ∀ a : Nat, a ≤ ls.foldl (fun x l => max x l.blockNumber) a := by
  induction ls with
  | nil => intro a; exact Nat.le_refl a
  | cons l t ih =>
    intro a
    exact Nat.le_trans (Nat.le_max_left a l.blockNumber) (ih (max a l.blockNumber))

theorem le_probeNewLast (c head : Nat) (logs : List DepositLog)
    (hh : c ≤ head) (hl : ∀ l ∈ logs, c + 1 ≤ l.blockNumber) :
    c ≤ probeNewLast head logs := by
  cases logs with
  | nil => exact hh
  | cons l t =>
    have h1 : c ≤ l.blockNumber :=
      Nat.le_trans (Nat.le_succ c) (hl l (List.mem_cons_self l t))
    exact Nat.le_trans h1 (le_foldl_maxBlock t l.blockNumber)

theorem run_deposit_probe_store (c : Nat) (bt : Option Nat) (head : Nat)
    (logs : List DepositLog) :
    (run_deposit_probe (some c) ⟨bt, some head, some logs⟩).2 =
      some (probeNewLast head logs) := rfl

/-- C6: across any sequence of successful probe scans whose environments
are well-formed (heads never behind the current checkpoint, logs inside
the queried range), the persisted checkpoint only moves forward; and a
scan that finds zero logs both returns and persists the resolved chain
head as the new checkpoint. -/
theorem c6_checkpoint_monotone (c : Nat) (scans : List (Nat × List DepositLog))
    (h : validScansB c scans = true) :
    (∃ c', runProbeSeq (some c) scans = some c' ∧ c ≤ c') ∧
    (∀ head : Nat,
      (run_deposit_probe (some c) ⟨none, some head, some []⟩).1.2.2.2 = some head ∧
      (run_deposit_probe (some c) ⟨none, some head, some []⟩).2 = some head) := by
  constructor
  · induction scans generalizing c with
    | nil => exact ⟨c, rfl, Nat.le_refl c⟩
    | cons s rest ih =>
      obtain ⟨head, logs⟩ := s
      simp only [validScansB, Bool.and_eq_true, decide_eq_true_eq,
        List.all_eq_true] at h
      obtain ⟨⟨hh, hl⟩, hrest⟩ := h
      have hstep : c ≤ probeNewLast head logs :=
        le_probeNewLast c head logs hh (fun l hm => hl l hm)
      obtain ⟨c', heq, hle⟩ := ih (probeNewLast head logs) hrest
      refine ⟨c', ?_, Nat.le_trans hstep hle⟩
      unfold runProbeSeq
      rw [run_deposit_probe_store]
      exact heq
  · intro head
    exact ⟨rfl, rfl⟩

/-- C6 witness: two successful scans, the first over a quiet window. -/
theorem c6_checkpoint_monotone_witness :
    (∃ c', runProbeSeq (some 100) [(105, []), (110, [⟨107, 5⟩])] = some c' ∧
      100 ≤ c') ∧
    (∀ head : Nat,
      (run_deposit_probe (some 100) ⟨none, some head, some []⟩).1.2.2.2 = some head ∧
      (run_deposit_probe (some 100) ⟨none, some head, some []⟩).2 = some head) :=
  c6_checkpoint_monotone 100 [(105, []), (110, [⟨107, 5⟩])] (by decide)

/-! ## Claim C9 — signature aggregation order and concatenation -/

theorem sigFold_some (l : List Confirmation)
    (h : ∀ c ∈ l, c.signature ≠ "" ∧ (sigBytes c).isSome ∧ sigBytes c ≠ some []) :
    ∀ acc : List Nat, l.foldl sigStep (some acc) =
      some (acc ++ l.flatMap (fun c => (sigBytes c).getD [])) := by
  induction l with
  | nil => intro acc; simp
  | cons c t ih =>
    intro acc
    obtain ⟨hne, hsome, _⟩ := h c (List.mem_cons_self c t)
    obtain ⟨b, hb⟩ := Option.isSome_iff_exists.mp hsome
    have hstep : sigStep (some acc) c = some (acc ++ b) := by
      simp [sigStep, if_neg hne, hb]
    rw [List.foldl_cons, hstep, ih (fun x hx => h x (List.mem_cons_of_mem c hx))]
    simp [hb, List.append_assoc]

/-- C9: for a transaction with a non-empty confirmations list of
well-formed signatures (each a non-empty `0x`-prefixed hex string),
`collect_and_sort_signatures` returns exactly the separator-free
concatenation of the signatures' raw bytes taken in an order that is a
permutation of the confirmations sorted ascending by case-insensitively
compared owner address. -/
theorem c9_signature_aggregation (tx : RawFeedTx) (confs : List Confirmation)
    (h1 : tx.confirmations = some confs) (h2 : confs ≠ [])
    (h3 : ∀ c ∈ confs, c.signature ≠ "" ∧ (sigBytes c).isSome ∧ sigBytes c ≠ some []) :
    ∃ l : List Confirmation, l.Perm confs ∧ l.Pairwise ownerLe ∧
      collect_and_sort_signatures tx =
        .sigs (l.flatMap (fun c => (sigBytes c).getD [])) := by
  refine ⟨List.insertionSort ownerLe confs, List.perm_insertionSort ownerLe confs,
    List.sorted_insertionSort ownerLe confs, ?_⟩
  obtain ⟨c, t, rfl⟩ := List.exists_cons_of_ne_nil h2
  have hall : ∀ x ∈ List.insertionSort ownerLe (c :: t),
      x.signature ≠ "" ∧ (sigBytes x).isSome ∧ sigBytes x ≠ some [] := fun x hx =>
    h3 x ((List.perm_insertionSort ownerLe (c :: t)).mem_iff.mp hx)
  have hsne : List.insertionSort ownerLe (c :: t) ≠ [] := by
    intro he
    have := List.length_insertionSort ownerLe (c :: t)
    rw [he] at this
    simp at this
  obtain ⟨s, s', hs⟩ := List.exists_cons_of_ne_nil hsne
  obtain ⟨hne, hsome, hnn⟩ := hall s (by rw [hs]; exact List.mem_cons_self s s')
  obtain ⟨b, hb⟩ := Option.isSome_iff_exists.mp hsome
  have hbne : b ≠ [] := by
    intro he
    rw [he] at hb
    exact hnn hb
  obtain ⟨y, ys, rfl⟩ := List.exists_cons_of_ne_nil hbne
  unfold collect_and_sort_signatures
  rw [h1]
  dsimp only
  rw [sigFold_some _ hall []]
  rw [hs]
  simp [hb]

/-- Concrete confirmations: owners out of case-insensitive order. -/
def c9ConfA : Confirmation := ⟨"0xBBaa11", "0x01ff"⟩

def c9ConfB : Confirmation := ⟨"0xaaCC22", "0xee"⟩

def c9Tx : RawFeedTx :=
  ⟨5, false, "2024-01-03T00:00:00Z", "", some [c9ConfA, c9ConfB], some 2⟩

/-- C9 witness: the aggregation property at a concrete transaction. -/
theorem c9_signature_aggregation_witness :
    ([c9ConfA, c9ConfB] ≠ ([] : List Confirmation)) ∧
    (∀ c ∈ [c9ConfA, c9ConfB],
      c.signature ≠ "" ∧ (sigBytes c).isSome ∧ sigBytes c ≠ some []) ∧
    ∃ l : List Confirmation, l.Perm [c9ConfA, c9ConfB] ∧ l.Pairwise ownerLe ∧
      collect_and_sort_signatures c9Tx =
        .sigs (l.flatMap (fun c => (sigBytes c).getD [])) :=
  ⟨by decide, by decide,
    c9_signature_aggregation c9Tx [c9ConfA, c9ConfB] rfl (by decide) (by decide)⟩

/-! ## Claim C7 — retry budgets, backoff, failure categories, sentinels -/

/-- Whether a `make_request` attempt succeeds (JSON body holding a
`result` field). -/
def makeAttemptSucceeds : MakeResp → Bool
  | .jsonBody obj => (lookupField obj "result").isSome
  | _ => false

/-- Whether a fetch attempt yields a JSON body (any JSON object is a
success for `fetch_recent_transactions`). -/
def fetchAttemptIsJson : FetchResp → Bool
  | .jsonBody _ => true
  | _ => false

/-- Shifting one doubling step out of a backoff schedule. -/
theorem sleeps_shift (delay m : Nat) (s₀ : List Nat) :
    s₀ ++ (List.range (m + 1)).map (fun j => delay * 2 ^ j) =
      (s₀ ++ [delay]) ++ (List.range m).map (fun j => delay * 2 * 2 ^ j) := by
  rw [List.range_succ_eq_map, List.map_cons, List.map_map]
  simp only [pow_zero, mul_one, List.append_assoc, List.singleton_append]
  congr 2
  apply List.map_congr_left
  intro j _
  simp only [Function.comp_apply, pow_succ]
  ring

theorem makeGo_spec (rs : Nat → MakeResp) :
    ∀ (fuel i delay : Nat) (s₀ : List Nat),
      i ≤ (makeRequestGo rs fuel i delay s₀).attempts ∧
      (makeRequestGo rs fuel i delay s₀).attempts ≤ i + fuel ∧
      (makeRequestGo rs fuel i delay s₀).sleeps =
        s₀ ++ (List.range ((makeRequestGo rs fuel i delay s₀).attempts - i)).map
          (fun j => delay * 2 ^ j) ∧
      ((∀ k, i ≤ k → k < i + fuel → makeAttemptSucceeds (rs k) = false) →
        makeRequestGo rs fuel i delay s₀ =
          ⟨none, i + fuel, s₀ ++ (List.range fuel).map (fun j => delay * 2 ^ j)⟩) := by
  intro fuel
  induction fuel with
  | zero =>
    intro i delay s₀
    refine ⟨Nat.le_refl i, Nat.le_refl i, ?_, fun _ => ?_⟩ <;>
      simp [makeRequestGo]
  | succ f ih =>
    intro i delay s₀
    simp only [makeRequestGo]
    cases hri : rs i
    case jsonBody obj =>
      dsimp only
      by_cases hkey : (lookupField obj "result").isSome = true
      · rw [if_pos hkey]
        refine ⟨Nat.le_succ i, by show i + 1 ≤ i + (f + 1); omega, ?_, fun hfail => ?_⟩
        · have h1 : i + 1 - i = 1 := by omega
          simp [h1, List.range_succ_eq_map]
        · exfalso
          have hbad := hfail i (Nat.le_refl i) (by omega)
          simp [makeAttemptSucceeds, hri, hkey] at hbad
      · rw [if_neg hkey]
        obtain ⟨ha1, ha2, ha3, ha4⟩ := ih (i + 1) (delay * 2) (s₀ ++ [delay])
        refine ⟨by omega, by omega, ?_, fun hfail => ?_⟩
        · have hm : (makeRequestGo rs f (i + 1) (delay * 2) (s₀ ++ [delay])).attempts - i =
              ((makeRequestGo rs f (i + 1) (delay * 2) (s₀ ++ [delay])).attempts - (i + 1)) + 1 := by
            omega
          rw [ha3, hm, sleeps_shift]
        · rw [ha4 (fun k hk1 hk2 => hfail k (by omega) (by omega)), ← sleeps_shift]
          simp only [RetryTrace.mk.injEq]
          exact ⟨by trivial, by omega, by trivial⟩
    all_goals {
      dsimp only
      obtain ⟨ha1, ha2, ha3, ha4⟩ := ih (i + 1) (delay * 2) (s₀ ++ [delay])
      refine ⟨by omega, by omega, ?_, fun hfail => ?_⟩
      · have hm : (makeRequestGo rs f (i + 1) (delay * 2) (s₀ ++ [delay])).attempts - i =
            ((makeRequestGo rs f (i + 1) (delay * 2) (s₀ ++ [delay])).attempts - (i + 1)) + 1 := by
          omega
        rw [ha3, hm, sleeps_shift]
      · rw [ha4 (fun k hk1 hk2 => hfail k (by omega) (by omega)), ← sleeps_shift]
        simp only [RetryTrace.mk.injEq]
        exact ⟨by trivial, by omega, by trivial⟩ }

theorem fetchGo_spec (rs : Nat → FetchResp) :
    ∀ (fuel i delay : Nat) (s₀ : List Nat),
      i ≤ (fetchRecentGo rs fuel i delay s₀).attempts ∧
      (fetchRecentGo rs fuel i delay s₀).attempts ≤ i + fuel ∧
      (0 < fuel → i + 1 ≤ (fetchRecentGo rs fuel i delay s₀).attempts) ∧
      (fetchRecentGo rs fuel i delay s₀).sleeps =
        s₀ ++ (List.range ((fetchRecentGo rs fuel i delay s₀).attempts - i - 1)).map
          (fun j => delay * 2 ^ j) ∧
      ((∀ k, i ≤ k → k < i + fuel → fetchAttemptIsJson (rs k) = false) →
        fetchRecentGo rs fuel i delay s₀ =
          ⟨[], i + fuel, s₀ ++ (List.range (fuel - 1)).map (fun j => delay * 2 ^ j)⟩) := by
  intro fuel
  induction fuel with
  | zero =>
    intro i delay s₀
    refine ⟨Nat.le_refl i, Nat.le_refl i, fun h => absurd h (by omega), ?_, fun _ => ?_⟩ <;>
      simp [fetchRecentGo]
  | succ f ih =>
    intro i delay s₀
    simp only [fetchRecentGo]
    cases hri : rs i
    case jsonBody fields =>
      dsimp only
      refine ⟨Nat.le_succ i, by show i + 1 ≤ i + (f + 1); omega,
        fun _ => Nat.le_refl (i + 1), ?_, fun hfail => ?_⟩
      · have h1 : i + 1 - i - 1 = 0 := by omega
        simp [h1]
      · exfalso
        have hbad := hfail i (Nat.le_refl i) (by omega)
        simp [fetchAttemptIsJson, hri] at hbad
    all_goals {
      dsimp only
      by_cases hr : f = 0
      · subst hr
        rw [if_pos rfl]
        simp only [fetchRecentGo]
        refine ⟨Nat.le_succ i, by omega, fun _ => Nat.le_refl (i + 1), ?_, fun _ => ?_⟩
        · have h1 : i + 1 - i - 1 = 0 := by omega
          simp [h1]
        · simp
      · rw [if_neg hr]
        obtain ⟨hb0, hb1, hb2, hb3, hb4⟩ := ih (i + 1) (delay * 2) (s₀ ++ [delay])
        have hfpos : 0 < f := Nat.pos_of_ne_zero hr
        have hge := hb2 hfpos
        refine ⟨by omega, by omega, fun _ => by omega, ?_, fun hfail => ?_⟩
        · have hm : (fetchRecentGo rs f (i + 1) (delay * 2) (s₀ ++ [delay])).attempts - i - 1 =
              ((fetchRecentGo rs f (i + 1) (delay * 2) (s₀ ++ [delay])).attempts - (i + 1) - 1) + 1 := by
            omega
          rw [hb3, hm, sleeps_shift]
        · rw [hb4 (fun k hk1 hk2 => hfail k (by omega) (by omega)), ← sleeps_shift]
          have hf1 : f - 1 + 1 = f := by omega
          rw [hf1]
          simp only [RetryTrace.mk.injEq]
          exact ⟨by trivial, by omega, by trivial⟩ }

/-- A well-shaped feed record used by the C7 counterexample oracle. -/
def c7FeedTx : RawFeedTx := ⟨3, false, "2024-01-05T00:00:00Z", "", none, none⟩

/-- Oracle: the first response is a JSON object without a `results` field,
the second (and later) a JSON object holding one transaction. -/
def c7Responses : Nat → FetchResp := fun i =>
  if i = 0 then .jsonBody [] else .jsonBody [("results", [c7FeedTx])]

/-- C7 counterexample: the claim counts a JSON body of the wrong shape as a
failed attempt.  On an oracle whose first response is a JSON object
without a `results` field, the code returns the empty list after a single
attempt (the `.get("results", [])` fallback makes the wrong shape a
success), whereas the claim's reading retries and obtains the transaction
on the second attempt — the two behaviours differ. -/
theorem c7_counterexample :
    fetch_recent_transactions c7Responses = ⟨[], 1, []⟩ ∧
    fetch_recent_transactions_specReading c7Responses =
      ⟨[annotate c7FeedTx], 2, [1]⟩ ∧
    fetch_recent_transactions c7Responses ≠
      fetch_recent_transactions_specReading c7Responses := by
  decide

/-- C7 amended: `make_request` performs at most 5 attempts and
`fetch_recent_transactions` at most 4; the delay doubles after each failed
attempt (starting at 1 s); a non-2xx response, transport error or non-JSON
body counts as a failed attempt for both, and a JSON object without the
`result` field also fails for `make_request`, while
`fetch_recent_transactions` treats a JSON object without the `results`
field as a successful fetch of zero transactions and returns the empty
list immediately; after exhausting retries the functions return the
sentinels `None` respectively the empty list (the models are total — no
path raises). -/
theorem c7_retry_contract :
    (∀ rs : Nat → MakeResp, (make_request rs).attempts ≤ 5) ∧
    (∀ rs : Nat → FetchResp, (fetch_recent_transactions rs).attempts ≤ 4) ∧
    (∀ rs : Nat → MakeResp, (make_request rs).sleeps =
      (List.range (make_request rs).attempts).map (fun j => 2 ^ j)) ∧
    (∀ rs : Nat → FetchResp, (fetch_recent_transactions rs).sleeps =
      (List.range ((fetch_recent_transactions rs).attempts - 1)).map (fun j => 2 ^ j)) ∧
    (∀ rs : Nat → MakeResp, (∀ k, k < 5 → makeAttemptSucceeds (rs k) = false) →
      make_request rs = ⟨none, 5, [1, 2, 4, 8, 16]⟩) ∧
    (∀ rs : Nat → FetchResp, (∀ k, k < 4 → fetchAttemptIsJson (rs k) = false) →
      fetch_recent_transactions rs = ⟨[], 4, [1, 2, 4]⟩) ∧
    (∀ (rs : Nat → FetchResp) (fields : List (String × List RawFeedTx)),
      rs 0 = .jsonBody fields → lookupField fields "results" = none →
      fetch_recent_transactions rs = ⟨[], 1, []⟩) := by
  refine ⟨?_, ?_, ?_, ?_, ?_, ?_, ?_⟩
  · intro rs
    have h := (makeGo_spec rs 5 0 1 []).2.1
    simpa using h
  · intro rs
    have h := (fetchGo_spec rs 4 0 1 []).2.1
    simpa using h
  · intro rs
    have h := (makeGo_spec rs 5 0 1 []).2.2.1
    simpa using h
  · intro rs
    have h := (fetchGo_spec rs 4 0 1 []).2.2.2.1
    simpa using h
  · intro rs hfail
    have h := (makeGo_spec rs 5 0 1 []).2.2.2 (fun k _ hk2 => hfail k (by omega))
    rw [make_request, h]
    simp only [RetryTrace.mk.injEq]
    refine ⟨by trivial, by trivial, by decide⟩
  · intro rs hfail
    have h := (fetchGo_spec rs 4 0 1 []).2.2.2.2 (fun k _ hk2 => hfail k (by omega))
    rw [fetch_recent_transactions, h]
    simp only [RetryTrace.mk.injEq]
    refine ⟨by trivial, by trivial, by decide⟩
  · intro rs fields h0 hlk
    rw [fetch_recent_transactions]
    simp only [fetchRecentGo, h0]
    rw [hlk]
    rfl

/-- C7 witness: the retry contract realized on concrete oracles — an
always-failing endpoint for both functions, and a wrong-shape body for the
fetch. -/
theorem c7_retry_contract_witness :
    make_request (fun _ => MakeResp.httpError) = ⟨none, 5, [1, 2, 4, 8, 16]⟩ ∧
    fetch_recent_transactions (fun _ => FetchResp.transportError) = ⟨[], 4, [1, 2, 4]⟩ ∧
    fetch_recent_transactions (fun _ => FetchResp.jsonBody []) = ⟨[], 1, []⟩ :=
  ⟨c7_retry_contract.2.2.2.2.1 (fun _ => MakeResp.httpError) (fun _ _ => rfl),
   c7_retry_contract.2.2.2.2.2.1 (fun _ => FetchResp.transportError) (fun _ _ => rfl),
   c7_retry_contract.2.2.2.2.2.2 (fun _ => FetchResp.jsonBody []) [] rfl rfl⟩

end Delegatooor
